import Mathlib

/-!
Shallow embedding of the meta-transaction core of the deployContract-metaTx
repository, covering:

* `meta-exec-lib/src/index.ts` (`prepareForward`, `executeForward`,
  `getDeployedAddress`),
* `lib/src/metaTxAbi.ts` (the shared constants, `ForwardRequest`,
  `createForwardRequest`, `forwardToTuple`),
* `lib/src/metaTxDeploy.ts` (`deployViaMetaTx`),
* `lib/src/metaTxExecute.ts` (`executeViaMetaTx`, `generateSecureNonce`).

Hex byte strings of the source are modelled as lists of bytes; the external
collaborators (the ethers library hash/ABI functions, the network provider,
the signing wallet) are passed in as explicit function parameters, mirroring
the `provider` / wallet parameters of the TypeScript functions.  Optional
TypeScript parameters become `Option` fields with the source's destructuring
defaults applied inside the function body.  Network-visible effects
(allowlist query, gas estimation, signing, transaction submission, console
warnings) are recorded in an explicit action trace.
-/

/-- Byte strings: payloads, bytecode, digests and encoded call data.
Hex strings such as `"0x"` in the source denote the empty byte string. -/
abbrev Bytes := List Nat

/-- Dynamic values that can occupy a slot of an ABI tuple or of an EIP-712
message record.  `vundef` models a JavaScript `undefined` flowing into a
slot (possible in the source because `caller` is optional and
`deployViaMetaTx` can leave `nonce` unset). -/
inductive Val where
  | vaddr : String → Val
  | vuint : Nat → Val
  | vbytes : Bytes → Val
  | vundef : Val
deriving DecidableEq, Repr

/-- lib/metaTxAbi.ts: `EXECUTE_SIG`. -/
def EXECUTE_SIG : String :=
  "execute((address,address,uint256,uint32,uint256,uint256,bytes32,address),bytes,bytes)"

/-- lib/metaTxAbi.ts: `EIP712_DOMAIN.name`. -/
def EIP712_DOMAIN_name : String := "PermissionedMetaTxHub"

/-- lib/metaTxAbi.ts: `EIP712_DOMAIN.version`. -/
def EIP712_DOMAIN_version : String := "1"

/-- lib/metaTxAbi.ts: `FORWARD_TYPE`, the EIP-712 field schema as
(name, solidity type) pairs, in declaration order. -/
def FORWARD_TYPE : List (String × String) :=
  [("from", "address"), ("to", "address"), ("value", "uint256"),
   ("space", "uint32"), ("nonce", "uint256"), ("deadline", "uint256"),
   ("dataHash", "bytes32"), ("caller", "address")]

/-- ethers.ZeroAddress. -/
def ZeroAddress : String := "0x0000000000000000000000000000000000000000"

/-- lib/metaTxAbi.ts: interface `ForwardRequest`.  The interface declares
`nonce: bigint`, but `deployViaMetaTx` passes a possibly-`undefined` value
through `createForwardRequest` at runtime, so the field is embedded as an
`Option`. -/
structure ForwardRequest where
  from_ : String
  to_ : String
  value : Nat
  space : Nat
  nonce : Option Nat
  deadline : Nat
  dataHash : Bytes
  caller : String
deriving DecidableEq, Repr

/-- Parameters of lib/metaTxAbi.ts `createForwardRequest` (`value` and
`space` are optional with defaults `0n` / `0`). -/
structure CreateForwardParams where
  from_ : String
  to_ : String
  value : Option Nat
  space : Option Nat
  nonce : Option Nat
  deadline : Nat
  dataHash : Bytes
  caller : String
deriving DecidableEq, Repr

/-- lib/metaTxAbi.ts: `createForwardRequest`. -/
def createForwardRequest (p : CreateForwardParams) : ForwardRequest :=
  { from_ := p.from_
    to_ := p.to_
    value := p.value.getD 0
    space := p.space.getD 0
    nonce := p.nonce
    deadline := p.deadline
    dataHash := p.dataHash
    caller := p.caller }

/-- A possibly-undefined nonce placed into a tuple slot. -/
def nonceVal (n : Option Nat) : Val :=
  match n with
  | some k => Val.vuint k
  | none => Val.vundef

/-- lib/metaTxAbi.ts: `forwardToTuple` — the 8-element ordered tuple
(from, to, value, space, nonce, deadline, dataHash, caller). -/
def forwardToTuple (f : ForwardRequest) : List Val :=
  [Val.vaddr f.from_, Val.vaddr f.to_, Val.vuint f.value, Val.vuint f.space,
   nonceVal f.nonce, Val.vuint f.deadline, Val.vbytes f.dataHash,
   Val.vaddr f.caller]

/-- An EIP-712 domain record. -/
structure Domain where
  name : String
  version : String
  chainId : Nat
  verifyingContract : String
deriving DecidableEq, Repr

/-- Parameters of `prepareForward` (meta-exec-lib/src/index.ts).  The
`provider` parameter is replaced by the `chainId` the provider would
report; optional parameters are `Option` fields. -/
structure PrepareForwardParams where
  metaAddress : String
  domainName : Option String
  domainVersion : Option String
  hasCaller : Option Bool
  from_ : String
  to_ : String
  value : Option Nat
  space : Option Nat
  nonce : Option Nat
  deadline : Option Nat
  deadlineSec : Option Nat
  callData : Bytes
  caller : Option String
deriving DecidableEq, Repr

/-- Result record of `prepareForward` (meta-exec-lib/src/index.ts).
`message` is the EIP-712 message object as an ordered field list. -/
structure PrepareForwardResult where
  domain : Domain
  typesForward : List (String × String)
  message : List (String × Val)
  fTuple : List Val
  callData : Bytes
  dataHash : Bytes
  chainId : Nat
  executeSig : String
deriving DecidableEq, Repr

/-- A possibly-undefined caller address placed into a tuple slot. -/
def callerVal (c : Option String) : Val :=
  match c with
  | some a => Val.vaddr a
  | none => Val.vundef

/-- The deadline computed by `prepareForward`:
`deadline !== undefined ? BigInt(deadline)
 : BigInt(Math.floor(Date.now() / 1000) + Number(deadlineSec || 600))`.
Note that `deadlineSec || 600` yields 600 both when `deadlineSec` is
`undefined` and when it is `0` (JavaScript falsiness). -/
def prepDeadline (now : Nat) (deadline deadlineSec : Option Nat) : Nat :=
  match deadline with
  | some d => d
  | none => now + (if deadlineSec.getD 0 = 0 then 600 else deadlineSec.getD 0)

/-- meta-exec-lib/src/index.ts: `prepareForward`.  External collaborators:
`keccak256` (ethers hash of a byte string), `getAddress` (ethers address
normalization, `none` when it throws on a malformed address), the
provider-reported `chainId`, and the current UNIX time `now`.  The second
component collects the `console.warn` emissions of the call (the source
function contains none). -/
def prepareForward (keccak256 : Bytes → Bytes) (getAddress : String → Option String)
    (chainId now : Nat) (p : PrepareForwardParams) :
    Except String PrepareForwardResult × List String :=
  match p.nonce with
  | none => (Except.error "The parameter nonce is required.", [])
  | some nonce =>
    if p.callData = [] then (Except.error "Empty callData.", [])
    else
      match getAddress p.metaAddress with
      | none => (Except.error "invalid address", [])
      | some metaAddr =>
        let dataHash := keccak256 p.callData
        let hasCaller := p.hasCaller.getD true
        let finalDeadline := prepDeadline now p.deadline p.deadlineSec
        let domain : Domain :=
          { name := p.domainName.getD "PermissionedMetaTxHub"
            version := p.domainVersion.getD "1"
            chainId := chainId
            verifyingContract := metaAddr }
        let typesForward :=
          if hasCaller then
            [("from", "address"), ("to", "address"), ("value", "uint256"),
             ("space", "uint32"), ("nonce", "uint256"), ("deadline", "uint256"),
             ("dataHash", "bytes32"), ("caller", "address")]
          else
            [("from", "address"), ("to", "address"), ("value", "uint256"),
             ("space", "uint32"), ("nonce", "uint256"), ("deadline", "uint256"),
             ("dataHash", "bytes32")]
        let baseMessage : List (String × Val) :=
          [("from", Val.vaddr p.from_), ("to", Val.vaddr p.to_),
           ("value", Val.vuint (p.value.getD 0)),
           ("space", Val.vuint (p.space.getD 0)),
           ("nonce", Val.vuint nonce), ("deadline", Val.vuint finalDeadline),
           ("dataHash", Val.vbytes dataHash)]
        let message :=
          if hasCaller then baseMessage ++ [("caller", callerVal p.caller)]
          else baseMessage
        let baseTuple : List Val :=
          [Val.vaddr p.from_, Val.vaddr p.to_, Val.vuint (p.value.getD 0),
           Val.vuint (p.space.getD 0), Val.vuint nonce,
           Val.vuint finalDeadline, Val.vbytes dataHash]
        let fTuple :=
          if hasCaller then baseTuple ++ [callerVal p.caller] else baseTuple
        (Except.ok
          { domain := domain
            typesForward := typesForward
            message := message
            fTuple := fTuple
            callData := p.callData
            dataHash := dataHash
            chainId := chainId
            executeSig := EXECUTE_SIG }, [])

/-- A transaction request handed to a wallet's `sendTransaction`.  Fields
the source call site does not set are `none`. -/
structure TxRequest where
  to_ : String
  data : Bytes
  value : Option Nat
  gasLimit : Nat
  nonce : Option Nat
  gasPrice : Option Nat
  maxFeePerGas : Option Nat
  maxPriorityFeePerGas : Option Nat
deriving DecidableEq, Repr

/-- One raw receipt log entry (`{topics, data}`). -/
structure LogEntry where
  topics : List Bytes
  data : Bytes
deriving DecidableEq, Repr

/-- A transaction receipt, reduced to its log entries. -/
structure Receipt where
  logs : List LogEntry
deriving DecidableEq, Repr

/-- A log entry decoded against the hub event schema
(`Interface.parseLog`): an event name plus its decoded `deployed`
argument (meaningful when the name is "ContractDeployed"). -/
structure ParsedEvent where
  name : String
  deployed : String
deriving DecidableEq, Repr

/-- Network-visible effects performed by the embedded functions, in
program order. -/
inductive Effect where
  | encodeExec : List Val → Bytes → String → Effect
  | allowlistQuery : Val → Effect
  | estimateGas : Effect
  | signAttempt : ForwardRequest → Effect
  | sendTx : TxRequest → Effect
  | warn : String → Effect
deriving DecidableEq, Repr

/-- The `overrides` parameter of `executeForward`. -/
structure ExecOverrides where
  gasLimit : Option Nat
  value : Option Nat
  nonce : Option Nat
  gasPrice : Option Nat
  maxFeePerGas : Option Nat
  maxPriorityFeePerGas : Option Nat
deriving DecidableEq, Repr

/-- An `overrides` object with no field set (the `{}` default). -/
def noOverrides : ExecOverrides :=
  { gasLimit := none, value := none, nonce := none, gasPrice := none,
    maxFeePerGas := none, maxPriorityFeePerGas := none }

/-- Parameters of `executeForward` (meta-exec-lib/src/index.ts). -/
structure ExecuteForwardParams where
  metaAddress : String
  fTuple : List Val
  callData : Bytes
  signature : String
  overrides : ExecOverrides
  hasCaller : Option Bool
  checkAllowlist : Option Bool
deriving DecidableEq, Repr

/-- External collaborators of `executeForward`: the ethers address
normalizer, the relayer address, the ABI encoder for the hub's `execute`
entry point, whether `META_ABI` contains the `isCallerAllowed` function,
the hub's allowlist query, and the provider's gas estimation
(from, to, data, value). -/
structure ExecEnv where
  getAddress : String → Option String
  relayerAddress : String
  encodeExecute : List Val → Bytes → String → Bytes
  hubHasIsCallerAllowed : Bool
  isCallerAllowed : Val → Bool
  estimateGas : String → String → Bytes → Nat → Except String Nat

/-- The transaction request `executeForward` hands to
`relayer.sendTransaction` once a gas limit `g` is known. -/
def execTxOf (p : ExecuteForwardParams) (metaAddr : String)
    (execData : Bytes) (g : Nat) : TxRequest :=
  { to_ := metaAddr
    data := execData
    value := some (p.overrides.value.getD 0)
    gasLimit := g
    nonce := p.overrides.nonce
    gasPrice := p.overrides.gasPrice
    maxFeePerGas := p.overrides.maxFeePerGas
    maxPriorityFeePerGas := p.overrides.maxPriorityFeePerGas }

/-- Tail of `executeForward`: build the transaction request and hand it to
`relayer.sendTransaction`. -/
def execForwardFinish (p : ExecuteForwardParams) (metaAddr : String)
    (execData : Bytes) (g : Nat) (tr : List Effect) :
    Except String TxRequest × List Effect :=
  (Except.ok (execTxOf p metaAddr execData g),
   tr ++ [Effect.sendTx (execTxOf p metaAddr execData g)])

/-- Gas-limit step of `executeForward`:
`overrides.gasLimit ?? (await provider.estimateGas({...}))`. -/
def execForwardGas (env : ExecEnv) (p : ExecuteForwardParams)
    (metaAddr : String) (execData : Bytes) (tr : List Effect) :
    Except String TxRequest × List Effect :=
  match p.overrides.gasLimit with
  | some g => execForwardFinish p metaAddr execData g tr
  | none =>
    match env.estimateGas env.relayerAddress metaAddr execData
        (p.overrides.value.getD 0) with
    | Except.error e => (Except.error e, tr ++ [Effect.estimateGas])
    | Except.ok g =>
      execForwardFinish p metaAddr execData g (tr ++ [Effect.estimateGas])

/-- meta-exec-lib/src/index.ts: `executeForward`.  Returns the transaction
request handed to the relayer wallet (the source then awaits broadcast),
or the thrown error, together with the performed action trace. -/
def executeForward (env : ExecEnv) (p : ExecuteForwardParams) :
    Except String TxRequest × List Effect :=
  match env.getAddress p.metaAddress with
  | none => (Except.error "invalid address", [])
  | some metaAddr =>
    if env.encodeExecute p.fTuple p.callData p.signature = [] then
      (Except.error "Empty execData.",
       [Effect.encodeExec p.fTuple p.callData p.signature])
    else
      if p.checkAllowlist.getD true && p.hasCaller.getD true &&
          env.hubHasIsCallerAllowed then
        if env.isCallerAllowed ((p.fTuple.getLast?).getD Val.vundef) then
          execForwardGas env p metaAddr
            (env.encodeExecute p.fTuple p.callData p.signature)
            [Effect.encodeExec p.fTuple p.callData p.signature,
             Effect.allowlistQuery ((p.fTuple.getLast?).getD Val.vundef)]
        else
          (Except.error "Caller not allowed",
           [Effect.encodeExec p.fTuple p.callData p.signature,
            Effect.allowlistQuery ((p.fTuple.getLast?).getD Val.vundef)])
      else
        execForwardGas env p metaAddr
          (env.encodeExecute p.fTuple p.callData p.signature)
          [Effect.encodeExec p.fTuple p.callData p.signature]

/-- meta-exec-lib/src/index.ts: `getDeployedAddress` — map each log entry
through `parseLog` (null on decode failure), find the first entry that
decoded to a `ContractDeployed` event, and return its `deployed`
argument, or null. -/
def getDeployedAddress (parseLog : LogEntry → Option ParsedEvent)
    (receipt : Receipt) : Option String :=
  match (receipt.logs.map parseLog).find? (fun e =>
      match e with
      | some ev => ev.name == "ContractDeployed"
      | none => false) with
  | some (some ev) => some ev.deployed
  | _ => none

/-- External collaborators of the `lib/src` functions
(`deployViaMetaTx`, `executeViaMetaTx`): provider chain id, current UNIX
time, the random draw consumed by `generateSecureNonce`, the sender and
relayer wallet addresses, the ethers hash and ABI encoders, the sender
wallet's typed-data signer, the relayer wallet's transaction submission
(returning a transaction hash), `tx.wait()` (error on a throw, `none` on
a null receipt), the relayer's transaction count, and the hub interface's
log decoder. -/
structure ChainEnv where
  chainId : Nat
  now : Nat
  rand64 : Nat
  senderAddress : String
  relayerAddress : String
  keccak256 : Bytes → Bytes
  abiEncode : List String → List Val → Bytes
  encodeExecute : List Val → Bytes → String → Bytes
  signTypedData : Domain → List (String × String) → ForwardRequest →
    Except String String
  sendTx : TxRequest → Except String String
  waitReceipt : String → Except String (Option Receipt)
  txCount : Nat
  parseLog : LogEntry → Option ParsedEvent

/-- lib/src/metaTxExecute.ts: `generateSecureNonce` —
`BigInt(Math.floor(Date.now() / 1000)) + BigInt(hexlify(randomBytes(8)))`,
with the two environment draws passed in explicitly. -/
def generateSecureNonce (nowSec rand64 : Nat) : Nat := nowSec + rand64

/-- Parameters of `executeViaMetaTx` (lib/src/metaTxExecute.ts); the
wallet/provider objects live in `ChainEnv`. -/
structure MetaTxExecuteParams where
  targetAddress : String
  callData : Bytes
  hubAddress : String
  space : Option Nat
  nonce : Option Nat
  deadline : Option Nat
  deadlineSec : Option Nat
  value : Option Nat
  gasLimit : Option Nat
  gasPrice : Option Nat
  txNonce : Option Nat
  domainName : Option String
  domainVersion : Option String
deriving DecidableEq, Repr

/-- Result record of `executeViaMetaTx`. -/
structure MetaTxExecuteResult where
  success : Bool
  transactionHash : String
  receipt : Option Receipt
  forward : ForwardRequest
  signature : String
  error : Option String
deriving DecidableEq, Repr

/-- The placeholder forward returned on the catch path of both
`executeViaMetaTx` and `deployViaMetaTx`. -/
def failForward : ForwardRequest :=
  createForwardRequest
    { from_ := "", to_ := "", value := some 0, space := some 0,
      nonce := some 0, deadline := 0, dataHash := [], caller := "" }

/-- The catch-path result of `executeViaMetaTx`. -/
def execCatch (msg : String) : MetaTxExecuteResult :=
  { success := false, transactionHash := "", receipt := none,
    forward := failForward, signature := "", error := some msg }

/-- `executeViaMetaTx` step 1: `nonce ?? generateSecureNonce()`. -/
def execViaNonce (env : ChainEnv) (p : MetaTxExecuteParams) : Nat :=
  p.nonce.getD (generateSecureNonce env.now env.rand64)

/-- `executeViaMetaTx` step 2:
`deadline ?? BigInt(Math.floor(Date.now() / 1000) + deadlineSec)` with the
destructuring default `deadlineSec = 3600`. -/
def execViaDeadline (env : ChainEnv) (p : MetaTxExecuteParams) : Nat :=
  p.deadline.getD (env.now + p.deadlineSec.getD 3600)

/-- `executeViaMetaTx` step 3: the Forward struct built by
`createForwardRequest`. -/
def execViaForward (env : ChainEnv) (p : MetaTxExecuteParams) :
    ForwardRequest :=
  createForwardRequest
    { from_ := env.senderAddress, to_ := p.targetAddress,
      value := some (p.value.getD 0), space := some (p.space.getD 0),
      nonce := some (execViaNonce env p),
      deadline := execViaDeadline env p,
      dataHash := env.keccak256 p.callData,
      caller := env.relayerAddress }

/-- `executeViaMetaTx` step 4: the EIP-712 domain (this call site honours
the `domainName` / `domainVersion` parameter overrides). -/
def execViaDomain (env : ChainEnv) (p : MetaTxExecuteParams) : Domain :=
  { name := p.domainName.getD "PermissionedMetaTxHub"
    version := p.domainVersion.getD "1"
    chainId := env.chainId
    verifyingContract := p.hubAddress }

/-- `executeViaMetaTx` steps 6-8: the transaction request handed to
`relayerWallet.sendTransaction`, with defaults `gasLimit = 3_000_000n`,
`gasPrice = 0n` and `txNonce ?? getTransactionCount(relayer, "latest")`. -/
def execViaTx (env : ChainEnv) (p : MetaTxExecuteParams) (signature : String) :
    TxRequest :=
  { to_ := p.hubAddress
    data := env.encodeExecute (forwardToTuple (execViaForward env p))
      p.callData signature
    value := none
    gasLimit := p.gasLimit.getD 3000000
    nonce := some (p.txNonce.getD env.txCount)
    gasPrice := some (p.gasPrice.getD 0)
    maxFeePerGas := none
    maxPriorityFeePerGas := none }

/-- The trace of an `executeViaMetaTx` run that reached submission. -/
def execViaTrace (env : ChainEnv) (p : MetaTxExecuteParams)
    (signature : String) : List Effect :=
  [Effect.signAttempt (execViaForward env p),
   Effect.encodeExec (forwardToTuple (execViaForward env p))
     p.callData signature,
   Effect.sendTx (execViaTx env p signature)]

/-- Body of `executeViaMetaTx` (lib/src/metaTxExecute.ts), up to the
enclosing try/catch: errors are surfaced as `Except.error` and converted
into the failure result by the wrapper. -/
def executeViaMetaTxBody (env : ChainEnv) (p : MetaTxExecuteParams) :
    Except String MetaTxExecuteResult × List Effect :=
  if p.callData = [] then (Except.error "Empty callData", [])
  else if p.targetAddress = "" || p.targetAddress = ZeroAddress then
    (Except.error "Invalid targetAddress", [])
  else if p.hubAddress = "" || p.hubAddress = ZeroAddress then
    (Except.error "Invalid hubAddress", [])
  else
    match env.signTypedData (execViaDomain env p) FORWARD_TYPE
        (execViaForward env p) with
    | Except.error e =>
      (Except.error e, [Effect.signAttempt (execViaForward env p)])
    | Except.ok signature =>
      match env.sendTx (execViaTx env p signature) with
      | Except.error e => (Except.error e, execViaTrace env p signature)
      | Except.ok txHash =>
        match env.waitReceipt txHash with
        | Except.error e => (Except.error e, execViaTrace env p signature)
        | Except.ok none =>
          (Except.error "Transaction receipt is null",
           execViaTrace env p signature)
        | Except.ok (some receipt) =>
          (Except.ok
            { success := true, transactionHash := txHash,
              receipt := some receipt, forward := execViaForward env p,
              signature := signature, error := none },
           execViaTrace env p signature)

/-- lib/src/metaTxExecute.ts: `executeViaMetaTx` — the body wrapped in the
try/catch that converts any thrown error into a failure result. -/
def executeViaMetaTx (env : ChainEnv) (p : MetaTxExecuteParams) :
    MetaTxExecuteResult × List Effect :=
  match executeViaMetaTxBody env p with
  | (Except.ok r, tr) => (r, tr)
  | (Except.error e, tr) => (execCatch e, tr)

/-- Parameters of `deployViaMetaTx` (lib/src/metaTxDeploy.ts). -/
structure MetaTxDeployParams where
  contractBytecode : Bytes
  constructorTypes : Option (List String)
  constructorArgs : Option (List Val)
  hubAddress : String
  space : Option Nat
  nonce : Option Nat
  deadline : Option Nat
  deadlineSec : Option Nat
  gasLimit : Option Nat
  gasPrice : Option Nat
  domainName : Option String
  domainVersion : Option String
deriving DecidableEq, Repr

/-- Result record of `deployViaMetaTx`. -/
structure MetaTxDeployResult where
  success : Bool
  deployedAddress : Option String
  transactionHash : String
  receipt : Option Receipt
  forward : ForwardRequest
  signature : String
  error : Option String
deriving DecidableEq, Repr

/-- The catch-path result of `deployViaMetaTx`. -/
def deployCatch (msg : String) : MetaTxDeployResult :=
  { success := false, deployedAddress := none, transactionHash := "",
    receipt := none, forward := failForward, signature := "",
    error := some msg }

/-- The event-extraction loop of `deployViaMetaTx`: iterate the receipt
logs, skip entries `parseLog` cannot decode, and return the `deployed`
argument of the first decoded `ContractDeployed` event. -/
def extractDeployed (parseLog : LogEntry → Option ParsedEvent) :
    List LogEntry → Option String
  | [] => none
  | l :: rest =>
    match parseLog l with
    | some ev =>
      if ev.name == "ContractDeployed" then some ev.deployed
      else extractDeployed parseLog rest
    | none => extractDeployed parseLog rest

/-- `deployViaMetaTx` step 1: the deployment bytecode — the contract
bytecode with the ABI-encoded constructor arguments appended when any are
given. -/
def deployBytecodeOf (env : ChainEnv) (p : MetaTxDeployParams) : Bytes :=
  if 0 < (p.constructorArgs.getD []).length then
    p.contractBytecode ++
      env.abiEncode (p.constructorTypes.getD []) (p.constructorArgs.getD [])
  else p.contractBytecode

/-- `deployViaMetaTx` step 3: `deadline ?? now + deadlineSec` with the
destructuring default `deadlineSec = 3600`. -/
def deployDeadline (env : ChainEnv) (p : MetaTxDeployParams) : Nat :=
  p.deadline.getD (env.now + p.deadlineSec.getD 3600)

/-- `deployViaMetaTx` step 4: the Forward struct.  `to` is the zero
address (CREATE deployment) and, following the source line
`const finalNonce = nonce;`, an omitted nonce stays `undefined`. -/
def deployForward (env : ChainEnv) (p : MetaTxDeployParams) :
    ForwardRequest :=
  createForwardRequest
    { from_ := env.senderAddress, to_ := ZeroAddress, value := some 0,
      space := some (p.space.getD 0), nonce := p.nonce,
      deadline := deployDeadline env p,
      dataHash := env.keccak256 (deployBytecodeOf env p),
      caller := env.relayerAddress }

/-- `deployViaMetaTx` steps 7-8: the transaction request handed to
`relayerWallet.sendTransaction`, with defaults `gasLimit = 10_000_000n`
and `gasPrice = 0n`. -/
def deployTx (env : ChainEnv) (p : MetaTxDeployParams) (signature : String) :
    TxRequest :=
  { to_ := p.hubAddress
    data := env.encodeExecute (forwardToTuple (deployForward env p))
      (deployBytecodeOf env p) signature
    value := none
    gasLimit := p.gasLimit.getD 10000000
    nonce := none
    gasPrice := some (p.gasPrice.getD 0)
    maxFeePerGas := none
    maxPriorityFeePerGas := none }

/-- The trace of a `deployViaMetaTx` run that reached submission. -/
def deployTrace (env : ChainEnv) (p : MetaTxDeployParams)
    (signature : String) : List Effect :=
  [Effect.signAttempt (deployForward env p),
   Effect.encodeExec (forwardToTuple (deployForward env p))
     (deployBytecodeOf env p) signature,
   Effect.sendTx (deployTx env p signature)]

/-- Body of `deployViaMetaTx` (lib/src/metaTxDeploy.ts), up to the
enclosing try/catch.  Note the source line `const finalNonce = nonce;`
keeps an omitted nonce `undefined`, and the EIP-712 domain is built from
the `EIP712_DOMAIN` constants, ignoring the `domainName` /
`domainVersion` parameters. -/
def deployViaMetaTxBody (env : ChainEnv) (p : MetaTxDeployParams) :
    Except String MetaTxDeployResult × List Effect :=
  if p.contractBytecode = [] then
    (Except.error "contractBytecode is required", [])
  else if p.hubAddress = "" || p.hubAddress = ZeroAddress then
    (Except.error "Invalid hubAddress", [])
  else if (p.constructorTypes.getD []).length ≠
      (p.constructorArgs.getD []).length then
    (Except.error "constructorTypes and constructorArgs length mismatch", [])
  else
    match env.signTypedData
        { name := EIP712_DOMAIN_name, version := EIP712_DOMAIN_version,
          chainId := env.chainId, verifyingContract := p.hubAddress }
        FORWARD_TYPE (deployForward env p) with
    | Except.error e =>
      (Except.error e, [Effect.signAttempt (deployForward env p)])
    | Except.ok signature =>
      match env.sendTx (deployTx env p signature) with
      | Except.error e => (Except.error e, deployTrace env p signature)
      | Except.ok txHash =>
        match env.waitReceipt txHash with
        | Except.error e => (Except.error e, deployTrace env p signature)
        | Except.ok none =>
          (Except.error "Transaction receipt is null",
           deployTrace env p signature)
        | Except.ok (some receipt) =>
          (Except.ok
            { success := true,
              deployedAddress := extractDeployed env.parseLog receipt.logs,
              transactionHash := txHash, receipt := some receipt,
              forward := deployForward env p, signature := signature,
              error := none },
           if extractDeployed env.parseLog receipt.logs = none then
             deployTrace env p signature ++
               [Effect.warn "Could not find ContractDeployed event"]
           else deployTrace env p signature)

/-- lib/src/metaTxDeploy.ts: `deployViaMetaTx` — the body wrapped in the
try/catch that converts any thrown error into a failure result (the
function itself never throws). -/
def deployViaMetaTx (env : ChainEnv) (p : MetaTxDeployParams) :
    MetaTxDeployResult × List Effect :=
  match deployViaMetaTxBody env p with
  | (Except.ok r, tr) => (r, tr)
  | (Except.error e, tr) => (deployCatch e, tr)

/-- Boolean success test for an `Except`. -/
def exOk {ε α : Type} : Except ε α → Bool
  | Except.ok _ => true
  | Except.error _ => false

/-- A concrete stand-in hash for witnesses: prepend a tag byte. -/
def kW : Bytes → Bytes := fun b => 0 :: b

/-- A concrete stand-in address normalizer for witnesses: accept exactly
42-character strings. -/
def gaW : String → Option String :=
  fun s => if s.length = 42 then some s else none

/-- The LNet testnet hub address (42 characters). -/
def addrW : String := "0x9a49A9e7b5b07CDd6218624687D3C9FD30e853Bd"

/-- The LNet mainnet hub address (42 characters). -/
def addr2W : String := "0x1B5c82C4093D2422699255f59f3B8A33c4a37773"

/-- A concrete typed-data signer for witnesses that, like ethers, rejects
a request whose `nonce` slot is `undefined`. -/
def signW : Domain → List (String × String) → ForwardRequest →
    Except String String :=
  fun _ _ f =>
    match f.nonce with
    | some _ => Except.ok "0xsig"
    | none => Except.error "invalid BigNumberish value"

/-- A concrete happy-path environment for witnesses. -/
def envW : ChainEnv :=
  { chainId := 648540, now := 1000, rand64 := 7,
    senderAddress := addrW, relayerAddress := addr2W,
    keccak256 := kW,
    abiEncode := fun _ _ => [9, 9],
    encodeExecute := fun _ b _ => 1 :: b,
    signTypedData := signW,
    sendTx := fun _ => Except.ok "0xhash",
    waitReceipt := fun _ => Except.ok (some { logs := [] }),
    txCount := 3,
    parseLog := fun _ => none }

/-- A concrete `executeForward` environment whose allowlist query denies
every caller. -/
def eEnvDeny : ExecEnv :=
  { getAddress := gaW, relayerAddress := addr2W,
    encodeExecute := fun _ b _ => 1 :: b,
    hubHasIsCallerAllowed := true,
    isCallerAllowed := fun _ => false,
    estimateGas := fun _ _ _ _ => Except.ok 21000 }

/-- A concrete `executeForward` environment whose gas estimation fails. -/
def eEnvEstFail : ExecEnv :=
  { getAddress := gaW, relayerAddress := addr2W,
    encodeExecute := fun _ b _ => 1 :: b,
    hubHasIsCallerAllowed := true,
    isCallerAllowed := fun _ => true,
    estimateGas := fun _ _ _ _ => Except.error "execution reverted" }

/-- A concrete `executeForward` environment where everything succeeds. -/
def eEnvOk : ExecEnv :=
  { getAddress := gaW, relayerAddress := addr2W,
    encodeExecute := fun _ b _ => 1 :: b,
    hubHasIsCallerAllowed := true,
    isCallerAllowed := fun _ => true,
    estimateGas := fun _ _ _ _ => Except.ok 21000 }

/-- The traces of `executeViaMetaTx` and of its body coincide. -/
theorem executeViaMetaTx_trace_eq (env : ChainEnv) (p : MetaTxExecuteParams) :
    (executeViaMetaTx env p).2 = (executeViaMetaTxBody env p).2 := by
  unfold executeViaMetaTx
  rcases h : executeViaMetaTxBody env p with ⟨res, tr⟩
  cases res <;> simp

/-- The traces of `deployViaMetaTx` and of its body coincide. -/
theorem deployViaMetaTx_trace_eq (env : ChainEnv) (p : MetaTxDeployParams) :
    (deployViaMetaTx env p).2 = (deployViaMetaTxBody env p).2 := by
  unfold deployViaMetaTx
  rcases h : deployViaMetaTxBody env p with ⟨res, tr⟩
  cases res <;> simp

/-- Any `encodeExec` effect of `executeViaMetaTx` carries the input call
data as payload, and slot 6 of its tuple is the keccak digest of that
payload. -/
theorem executeViaMetaTx_encodeExec_mem (env : ChainEnv)
    (p : MetaTxExecuteParams) (t : List Val) (payload : Bytes) (s : String)
    (h : Effect.encodeExec t payload s ∈ (executeViaMetaTx env p).2) :
    payload = p.callData ∧
    t.get? 6 = some (Val.vbytes (env.keccak256 payload)) := by
  rw [executeViaMetaTx_trace_eq] at h
  unfold executeViaMetaTxBody at h
  split at h
  · simp at h
  · split at h
    · simp at h
    · split at h
      · simp at h
      · split at h
        · simp at h
        · have hmem : ∃ sig, Effect.encodeExec t payload s ∈
              execViaTrace env p sig := by
            split at h
            · exact ⟨_, h⟩
            · split at h <;> exact ⟨_, h⟩
          obtain ⟨sig, hmem⟩ := hmem
          simp only [execViaTrace, List.mem_cons, List.not_mem_nil,
            or_false] at hmem
          rcases hmem with h1 | h1 | h1
          · cases h1
          · injection h1 with e1 e2 e3
            subst e1; subst e2
            exact ⟨rfl, rfl⟩
          · cases h1

/-- Any `encodeExec` effect of `deployViaMetaTx` carries the prepared
deployment bytecode as payload, and slot 6 of its tuple is the keccak
digest of that payload. -/
theorem deployViaMetaTx_encodeExec_mem (env : ChainEnv)
    (p : MetaTxDeployParams) (t : List Val) (payload : Bytes) (s : String)
    (h : Effect.encodeExec t payload s ∈ (deployViaMetaTx env p).2) :
    payload = deployBytecodeOf env p ∧
    t.get? 6 = some (Val.vbytes (env.keccak256 payload)) := by
  rw [deployViaMetaTx_trace_eq] at h
  unfold deployViaMetaTxBody at h
  split at h
  · simp at h
  · split at h
    · simp at h
    · split at h
      · simp at h
      · split at h
        · simp at h
        · have hmem : ∃ sig, Effect.encodeExec t payload s ∈
              deployTrace env p sig := by
            split at h
            · exact ⟨_, h⟩
            · split at h
              · exact ⟨_, h⟩
              · exact ⟨_, h⟩
              · split at h
                · rcases List.mem_append.mp h with h2 | h2
                  · exact ⟨_, h2⟩
                  · simp at h2
                · exact ⟨_, h⟩
          obtain ⟨sig, hmem⟩ := hmem
          simp only [deployTrace, List.mem_cons, List.not_mem_nil,
            or_false] at hmem
          rcases hmem with h1 | h1 | h1
          · cases h1
          · injection h1 with e1 e2 e3
            subst e1; subst e2
            exact ⟨rfl, rfl⟩
          · cases h1

/-- Characterization of a successful `prepareForward` run: the inputs
passed the three checks and the result is exactly the record the source
builds (and no warning is emitted). -/
theorem prepareForward_ok_eq (k : Bytes → Bytes) (ga : String → Option String)
    (cid now : Nat) (p : PrepareForwardParams) (r : PrepareForwardResult)
    (w : List String) (h : prepareForward k ga cid now p = (Except.ok r, w)) :
    ∃ nonce metaAddr, p.nonce = some nonce ∧
      ga p.metaAddress = some metaAddr ∧ w = [] ∧
      r = { domain :=
              { name := p.domainName.getD "PermissionedMetaTxHub"
                version := p.domainVersion.getD "1"
                chainId := cid
                verifyingContract := metaAddr }
            typesForward :=
              if p.hasCaller.getD true then
                [("from", "address"), ("to", "address"), ("value", "uint256"),
                 ("space", "uint32"), ("nonce", "uint256"),
                 ("deadline", "uint256"), ("dataHash", "bytes32"),
                 ("caller", "address")]
              else
                [("from", "address"), ("to", "address"), ("value", "uint256"),
                 ("space", "uint32"), ("nonce", "uint256"),
                 ("deadline", "uint256"), ("dataHash", "bytes32")]
            message :=
              (if p.hasCaller.getD true then
                [("from", Val.vaddr p.from_), ("to", Val.vaddr p.to_),
                 ("value", Val.vuint (p.value.getD 0)),
                 ("space", Val.vuint (p.space.getD 0)),
                 ("nonce", Val.vuint nonce),
                 ("deadline",
                  Val.vuint (prepDeadline now p.deadline p.deadlineSec)),
                 ("dataHash", Val.vbytes (k p.callData))] ++
                  [("caller", callerVal p.caller)]
              else
                [("from", Val.vaddr p.from_), ("to", Val.vaddr p.to_),
                 ("value", Val.vuint (p.value.getD 0)),
                 ("space", Val.vuint (p.space.getD 0)),
                 ("nonce", Val.vuint nonce),
                 ("deadline",
                  Val.vuint (prepDeadline now p.deadline p.deadlineSec)),
                 ("dataHash", Val.vbytes (k p.callData))])
            fTuple :=
              (if p.hasCaller.getD true then
                [Val.vaddr p.from_, Val.vaddr p.to_,
                 Val.vuint (p.value.getD 0), Val.vuint (p.space.getD 0),
                 Val.vuint nonce,
                 Val.vuint (prepDeadline now p.deadline p.deadlineSec),
                 Val.vbytes (k p.callData)] ++ [callerVal p.caller]
              else
                [Val.vaddr p.from_, Val.vaddr p.to_,
                 Val.vuint (p.value.getD 0), Val.vuint (p.space.getD 0),
                 Val.vuint nonce,
                 Val.vuint (prepDeadline now p.deadline p.deadlineSec),
                 Val.vbytes (k p.callData)])
            callData := p.callData
            dataHash := k p.callData
            chainId := cid
            executeSig := EXECUTE_SIG } := by
  unfold prepareForward at h
  split at h
  · simp at h
  · rename_i nonce hn
    split at h
    · simp at h
    · split at h
      · simp at h
      · rename_i metaAddr ha
        simp only [Prod.mk.injEq, Except.ok.injEq] at h
        obtain ⟨h1, h2⟩ := h
        exact ⟨nonce, metaAddr, hn, ha, h2.symm, h1.symm⟩

/-- Claim C1: for every forward request constructed by `prepareForward`,
`executeViaMetaTx`, or `deployViaMetaTx`, the `dataHash` field of the
signed ForwardRequest equals the keccak256 digest of the exact payload
byte string (call data, or deployment bytecode plus encoded constructor
arguments) that is later passed alongside the tuple to the `execute`
encoding; since keccak256 is a pure function, two constructions from the
identical payload always yield the identical `dataHash`. -/
theorem C1_dataHash_binds_payload :
    (∀ k ga cid now p r w,
        prepareForward k ga cid now p = (Except.ok r, w) →
        r.dataHash = k r.callData ∧ r.callData = p.callData ∧
        r.fTuple.get? 6 = some (Val.vbytes (k p.callData))) ∧
    (∀ env p t payload s,
        Effect.encodeExec t payload s ∈ (executeViaMetaTx env p).2 →
        t.get? 6 = some (Val.vbytes (env.keccak256 payload))) ∧
    (∀ env p t payload s,
        Effect.encodeExec t payload s ∈ (deployViaMetaTx env p).2 →
        t.get? 6 = some (Val.vbytes (env.keccak256 payload))) ∧
    (∀ k ga cid now p q r1 w1 r2 w2,
        p.callData = q.callData →
        prepareForward k ga cid now p = (Except.ok r1, w1) →
        prepareForward k ga cid now q = (Except.ok r2, w2) →
        r1.dataHash = r2.dataHash) := by
  refine ⟨?_, ?_, ?_, ?_⟩
  · intro k ga cid now p r w h
    obtain ⟨nonce, metaAddr, hn, ha, hw, hr⟩ :=
      prepareForward_ok_eq k ga cid now p r w h
    subst hr
    refine ⟨rfl, rfl, ?_⟩
    cases hb : p.hasCaller.getD true <;> (simp only [hb]; rfl)
  · intro env p t payload s h
    exact (executeViaMetaTx_encodeExec_mem env p t payload s h).2
  · intro env p t payload s h
    exact (deployViaMetaTx_encodeExec_mem env p t payload s h).2
  · intro k ga cid now p q r1 w1 r2 w2 hpq h1 h2
    obtain ⟨n1, m1, -, -, -, hr1⟩ := prepareForward_ok_eq k ga cid now p r1 w1 h1
    obtain ⟨n2, m2, -, -, -, hr2⟩ := prepareForward_ok_eq k ga cid now q r2 w2 h2
    subst hr1; subst hr2
    simp [hpq]

/-- A concrete parameter record for `prepareForward` witnesses. -/
def pPrepW : PrepareForwardParams :=
  { metaAddress := addrW, domainName := none, domainVersion := none,
    hasCaller := some true, from_ := addr2W, to_ := addrW,
    value := some 5, space := some 0, nonce := some 7,
    deadline := none, deadlineSec := some 3600,
    callData := [1, 2, 3], caller := some addr2W }

/-- Witness for C1: the dataHash property evaluated at a concrete input. -/
theorem C1_dataHash_binds_payload_witness :
    ∃ r w, prepareForward kW gaW 648540 1000 pPrepW = (Except.ok r, w) ∧
      r.dataHash = kW r.callData := by
  rcases hE : prepareForward kW gaW 648540 1000 pPrepW with ⟨res, w⟩
  cases res with
  | error e =>
    have h1 : exOk (prepareForward kW gaW 648540 1000 pPrepW).1 = true := by
      decide
    rw [hE] at h1
    exact absurd h1 (by simp [exOk])
  | ok r =>
    exact ⟨r, w, rfl,
      (C1_dataHash_binds_payload.1 kW gaW 648540 1000 pPrepW r w hE).1⟩

/-- Claim C2: the encoded tuple produced for the verifier's execute entry
point lists the ForwardRequest fields in exactly the fixed order from,
to, value, space, nonce, deadline, dataHash, then caller, where the
caller field is present if and only if the hasCaller schema variant is
selected; `prepareForward`'s fTuple and types.Forward agree with this
order, and `forwardToTuple` produces the 8-element ordering. -/
theorem C2_tuple_field_order :
    (∀ f, forwardToTuple f =
        [Val.vaddr f.from_, Val.vaddr f.to_, Val.vuint f.value,
         Val.vuint f.space, nonceVal f.nonce, Val.vuint f.deadline,
         Val.vbytes f.dataHash, Val.vaddr f.caller]) ∧
    (∀ k ga cid now p r w nonce,
        p.nonce = some nonce →
        prepareForward k ga cid now p = (Except.ok r, w) →
        r.fTuple =
          [Val.vaddr p.from_, Val.vaddr p.to_, Val.vuint (p.value.getD 0),
           Val.vuint (p.space.getD 0), Val.vuint nonce,
           Val.vuint (prepDeadline now p.deadline p.deadlineSec),
           Val.vbytes (k p.callData)] ++
          (if p.hasCaller.getD true then [callerVal p.caller] else []) ∧
        r.typesForward.map Prod.fst =
          ["from", "to", "value", "space", "nonce", "deadline",
           "dataHash"] ++
          (if p.hasCaller.getD true then ["caller"] else []) ∧
        (p.hasCaller.getD true = true → r.typesForward = FORWARD_TYPE)) ∧
    (∀ k ga cid now p r w nonce c,
        p.nonce = some nonce → p.hasCaller.getD true = true →
        p.caller = some c →
        prepareForward k ga cid now p = (Except.ok r, w) →
        r.fTuple = forwardToTuple
          { from_ := p.from_, to_ := p.to_, value := p.value.getD 0,
            space := p.space.getD 0, nonce := some nonce,
            deadline := prepDeadline now p.deadline p.deadlineSec,
            dataHash := k p.callData, caller := c }) := by
  refine ⟨fun f => rfl, ?_, ?_⟩
  · intro k ga cid now p r w nonce hn h
    obtain ⟨n0, m0, hn0, ha0, hw0, hr0⟩ :=
      prepareForward_ok_eq k ga cid now p r w h
    rw [hn] at hn0
    injection hn0 with hn0
    subst hn0
    subst hr0
    refine ⟨?_, ?_, ?_⟩
    · cases hb : p.hasCaller.getD true <;> simp [hb]
    · cases hb : p.hasCaller.getD true <;> simp [hb]
    · intro hb
      simp [hb, FORWARD_TYPE]
  · intro k ga cid now p r w nonce c hn hb hc h
    obtain ⟨n0, m0, hn0, ha0, hw0, hr0⟩ :=
      prepareForward_ok_eq k ga cid now p r w h
    rw [hn] at hn0
    injection hn0 with hn0
    subst hn0
    subst hr0
    simp [hb, hc, forwardToTuple, callerVal, nonceVal]

/-- Witness for C2: the tuple ordering evaluated at a concrete input. -/
theorem C2_tuple_field_order_witness :
    ∃ r w, prepareForward kW gaW 648540 1000 pPrepW = (Except.ok r, w) ∧
      r.fTuple = forwardToTuple
        { from_ := pPrepW.from_, to_ := pPrepW.to_,
          value := pPrepW.value.getD 0, space := pPrepW.space.getD 0,
          nonce := some 7,
          deadline := prepDeadline 1000 pPrepW.deadline pPrepW.deadlineSec,
          dataHash := kW pPrepW.callData, caller := addr2W } := by
  rcases hE : prepareForward kW gaW 648540 1000 pPrepW with ⟨res, w⟩
  cases res with
  | error e =>
    have h1 : exOk (prepareForward kW gaW 648540 1000 pPrepW).1 = true := by
      decide
    rw [hE] at h1
    exact absurd h1 (by simp [exOk])
  | ok r =>
    exact ⟨r, w, rfl,
      C2_tuple_field_order.2.2 kW gaW 648540 1000 pPrepW r w 7 addr2W
        rfl rfl rfl hE⟩

/-- A `prepareForward` parameter record whose `from` and `to` are not
well-formed addresses (the stand-in normalizer `gaW` rejects both), while
`nonce`, `callData` and `metaAddress` are fine. -/
def pBadAddr : PrepareForwardParams :=
  { metaAddress := addrW, domainName := none, domainVersion := none,
    hasCaller := some true, from_ := "not-an-address", to_ := "banana",
    value := some 0, space := some 0, nonce := some 7,
    deadline := none, deadlineSec := none,
    callData := [1, 2], caller := some addr2W }

/-- Counterexample for C3: the claim says `prepareForward` fails when `to`
or `from` is not a well-formed address, but the source never validates
them (only `metaAddress` goes through `ethers.getAddress`): with both
`from` and `to` malformed the call still succeeds. -/
theorem C3_counterexample_to_from_not_validated :
    gaW "not-an-address" = none ∧ gaW "banana" = none ∧
    exOk (prepareForward kW gaW 648540 1000 pBadAddr).1 = true := by decide

/-- Claim C3 (amended): `prepareForward` fails exactly when the nonce
parameter is missing, when the payload is empty or the empty-call
placeholder "0x", or when the `metaAddress` parameter (the hub address,
not `to` / `from`) is not a well-formed address; for all other inputs it
returns a fully-populated ForwardRequest. -/
theorem C3_invalid_argument_amended :
    ∀ k ga cid now p,
      exOk (prepareForward k ga cid now p).1 = false ↔
        (p.nonce = none ∨ p.callData = [] ∨ ga p.metaAddress = none) := by
  intro k ga cid now p
  unfold prepareForward
  cases hn : p.nonce with
  | none => simp [exOk, hn]
  | some n =>
    by_cases hc : p.callData = []
    · simp [exOk, hn, hc]
    · cases ha : ga p.metaAddress with
      | none => simp [exOk, hn, hc, ha]
      | some a => simp [exOk, hn, hc, ha]

/-- With no explicit gas limit and failing estimation, the gas step of
`executeForward` surfaces the estimation error. -/
theorem execForwardGas_est_error (env : ExecEnv) (p : ExecuteForwardParams)
    (metaAddr : String) (execData : Bytes) (tr : List Effect) (e : String)
    (hgl : p.overrides.gasLimit = none)
    (hest : env.estimateGas env.relayerAddress metaAddr execData
        (p.overrides.value.getD 0) = Except.error e) :
    execForwardGas env p metaAddr execData tr =
      (Except.error e, tr ++ [Effect.estimateGas]) := by
  unfold execForwardGas
  simp [hgl, hest]

/-- With no explicit gas limit and successful estimation, the gas step of
`executeForward` submits with the estimated limit. -/
theorem execForwardGas_est_ok (env : ExecEnv) (p : ExecuteForwardParams)
    (metaAddr : String) (execData : Bytes) (tr : List Effect) (g : Nat)
    (hgl : p.overrides.gasLimit = none)
    (hest : env.estimateGas env.relayerAddress metaAddr execData
        (p.overrides.value.getD 0) = Except.ok g) :
    execForwardGas env p metaAddr execData tr =
      execForwardFinish p metaAddr execData g (tr ++ [Effect.estimateGas]) := by
  unfold execForwardGas
  simp [hgl, hest]

/-- A concrete parameter record for `executeViaMetaTx` witnesses, with no
explicit gas limit. -/
def pExecW : MetaTxExecuteParams :=
  { targetAddress := addrW, callData := [1, 2, 3], hubAddress := addr2W,
    space := some 0, nonce := some 42, deadline := some 2000,
    deadlineSec := none, value := some 0, gasLimit := none,
    gasPrice := some 0, txNonce := some 5, domainName := none,
    domainVersion := none }

/-- Counterexample for C4: in a concrete `executeViaMetaTx` run whose
caller supplies no explicit gas limit, the transaction is submitted
with the hard-coded default 3,000,000 and no gas estimation is ever
performed (so an estimation step cannot surface anything). -/
theorem C4_counterexample_executeViaMetaTx_never_estimates :
    pExecW.gasLimit = none ∧
    (executeViaMetaTx envW pExecW).1.success = true ∧
    Effect.estimateGas ∉ (executeViaMetaTx envW pExecW).2 ∧
    Effect.sendTx (execViaTx envW pExecW "0xsig") ∈
      (executeViaMetaTx envW pExecW).2 ∧
    (execViaTx envW pExecW "0xsig").gasLimit = 3000000 := by decide

/-- Claim C4 (amended): `executeForward` obtains the gas limit by
simulation when the caller supplies none and surfaces an estimation
failure as an error; but this holds only for the `executeForward`
submission path — `executeViaMetaTx` (and `deployViaMetaTx`) never
estimate and silently submit with the fixed defaults 3,000,000 and
10,000,000 when no explicit limit is given. -/
theorem C4_gas_estimation_amended :
    (∀ env p metaAddr e,
        env.getAddress p.metaAddress = some metaAddr →
        ¬ env.encodeExecute p.fTuple p.callData p.signature = [] →
        p.overrides.gasLimit = none →
        ((p.checkAllowlist.getD true && p.hasCaller.getD true &&
            env.hubHasIsCallerAllowed) = false ∨
          env.isCallerAllowed ((p.fTuple.getLast?).getD Val.vundef) = true) →
        env.estimateGas env.relayerAddress metaAddr
          (env.encodeExecute p.fTuple p.callData p.signature)
          (p.overrides.value.getD 0) = Except.error e →
        (executeForward env p).1 = Except.error e) ∧
    (∀ env p metaAddr g,
        env.getAddress p.metaAddress = some metaAddr →
        ¬ env.encodeExecute p.fTuple p.callData p.signature = [] →
        p.overrides.gasLimit = none →
        ((p.checkAllowlist.getD true && p.hasCaller.getD true &&
            env.hubHasIsCallerAllowed) = false ∨
          env.isCallerAllowed ((p.fTuple.getLast?).getD Val.vundef) = true) →
        env.estimateGas env.relayerAddress metaAddr
          (env.encodeExecute p.fTuple p.callData p.signature)
          (p.overrides.value.getD 0) = Except.ok g →
        ∃ tx, (executeForward env p).1 = Except.ok tx ∧ tx.gasLimit = g ∧
          Effect.estimateGas ∈ (executeForward env p).2) ∧
    (∀ env p g,
        p.overrides.gasLimit = some g →
        Effect.estimateGas ∉ (executeForward env p).2 ∧
        (∀ tx, (executeForward env p).1 = Except.ok tx →
          tx.gasLimit = g)) ∧
    (∀ env p, Effect.estimateGas ∉ (executeViaMetaTx env p).2) ∧
    (∀ env p tx, p.gasLimit = none →
        Effect.sendTx tx ∈ (executeViaMetaTx env p).2 →
        tx.gasLimit = 3000000) ∧
    (∀ env p, Effect.estimateGas ∉ (deployViaMetaTx env p).2) ∧
    (∀ env p tx, p.gasLimit = none →
        Effect.sendTx tx ∈ (deployViaMetaTx env p).2 →
        tx.gasLimit = 10000000) := by
  refine ⟨?_, ?_, ?_, ?_, ?_, ?_, ?_⟩
  · intro env p metaAddr e ha henc hgl hguard hest
    unfold executeForward
    simp only [ha]
    rw [if_neg henc]
    rcases hguard with hguard | hguard
    · rw [if_neg (by simp [hguard])]
      rw [execForwardGas_est_error env p metaAddr _ _ e hgl hest]
    · by_cases hcond : (p.checkAllowlist.getD true && p.hasCaller.getD true &&
          env.hubHasIsCallerAllowed) = true
      · rw [if_pos hcond, if_pos hguard]
        rw [execForwardGas_est_error env p metaAddr _ _ e hgl hest]
      · rw [if_neg hcond]
        rw [execForwardGas_est_error env p metaAddr _ _ e hgl hest]
  · intro env p metaAddr g ha henc hgl hguard hest
    unfold executeForward
    simp only [ha]
    rw [if_neg henc]
    rcases hguard with hguard | hguard
    · rw [if_neg (by simp [hguard])]
      rw [execForwardGas_est_ok env p metaAddr _ _ g hgl hest]
      exact ⟨_, rfl, rfl, by simp [execForwardFinish]⟩
    · by_cases hcond : (p.checkAllowlist.getD true && p.hasCaller.getD true &&
          env.hubHasIsCallerAllowed) = true
      · rw [if_pos hcond, if_pos hguard]
        rw [execForwardGas_est_ok env p metaAddr _ _ g hgl hest]
        exact ⟨_, rfl, rfl, by simp [execForwardFinish]⟩
      · rw [if_neg hcond]
        rw [execForwardGas_est_ok env p metaAddr _ _ g hgl hest]
        exact ⟨_, rfl, rfl, by simp [execForwardFinish]⟩
  · intro env p g hgl
    have hov : ∀ metaAddr execData tr,
        execForwardGas env p metaAddr execData tr =
          (Except.ok (execTxOf p metaAddr execData g),
           tr ++ [Effect.sendTx (execTxOf p metaAddr execData g)]) := by
      intro metaAddr execData tr
      unfold execForwardGas execForwardFinish
      simp [hgl]
    constructor
    · unfold executeForward
      split
      · simp
      · split
        · simp
        · split
          · split
            · rw [hov]
              simp
            · simp
          · rw [hov]
            simp
    · intro tx htx
      unfold executeForward at htx
      split at htx
      · simp at htx
      · split at htx
        · simp at htx
        · split at htx
          · split at htx
            · rw [hov] at htx
              simp only [Except.ok.injEq] at htx
              rw [← htx]
              rfl
            · simp at htx
          · rw [hov] at htx
            simp only [Except.ok.injEq] at htx
            rw [← htx]
            rfl
  · intro env p
    intro hmem
    rw [executeViaMetaTx_trace_eq] at hmem
    unfold executeViaMetaTxBody at hmem
    split at hmem
    · simp at hmem
    · split at hmem
      · simp at hmem
      · split at hmem
        · simp at hmem
        · split at hmem
          · simp at hmem
          · have : ∃ sig, Effect.estimateGas ∈ execViaTrace env p sig := by
              split at hmem
              · exact ⟨_, hmem⟩
              · split at hmem <;> exact ⟨_, hmem⟩
            obtain ⟨sig, hm⟩ := this
            simp [execViaTrace] at hm
  · intro env p tx hgl hmem
    rw [executeViaMetaTx_trace_eq] at hmem
    unfold executeViaMetaTxBody at hmem
    split at hmem
    · simp at hmem
    · split at hmem
      · simp at hmem
      · split at hmem
        · simp at hmem
        · split at hmem
          · simp at hmem
          · have : ∃ sig, Effect.sendTx tx ∈ execViaTrace env p sig := by
              split at hmem
              · exact ⟨_, hmem⟩
              · split at hmem <;> exact ⟨_, hmem⟩
            obtain ⟨sig, hm⟩ := this
            simp only [execViaTrace, List.mem_cons, List.not_mem_nil,
              or_false] at hm
            rcases hm with h1 | h1 | h1
            · cases h1
            · cases h1
            · injection h1 with e1
              subst e1
              simp [execViaTx, hgl]
  · intro env p
    intro hmem
    rw [deployViaMetaTx_trace_eq] at hmem
    unfold deployViaMetaTxBody at hmem
    split at hmem
    · simp at hmem
    · split at hmem
      · simp at hmem
      · split at hmem
        · simp at hmem
        · split at hmem
          · simp at hmem
          · have : ∃ sig, Effect.estimateGas ∈ deployTrace env p sig := by
              split at hmem
              · exact ⟨_, hmem⟩
              · split at hmem
                · exact ⟨_, hmem⟩
                · exact ⟨_, hmem⟩
                · split at hmem
                  · rcases List.mem_append.mp hmem with h2 | h2
                    · exact ⟨_, h2⟩
                    · simp at h2
                  · exact ⟨_, hmem⟩
            obtain ⟨sig, hm⟩ := this
            simp [deployTrace] at hm
  · intro env p tx hgl hmem
    rw [deployViaMetaTx_trace_eq] at hmem
    unfold deployViaMetaTxBody at hmem
    split at hmem
    · simp at hmem
    · split at hmem
      · simp at hmem
      · split at hmem
        · simp at hmem
        · split at hmem
          · simp at hmem
          · have : ∃ sig, Effect.sendTx tx ∈ deployTrace env p sig := by
              split at hmem
              · exact ⟨_, hmem⟩
              · split at hmem
                · exact ⟨_, hmem⟩
                · exact ⟨_, hmem⟩
                · split at hmem
                  · rcases List.mem_append.mp hmem with h2 | h2
                    · exact ⟨_, h2⟩
                    · simp at h2
                  · exact ⟨_, hmem⟩
            obtain ⟨sig, hm⟩ := this
            simp only [deployTrace, List.mem_cons, List.not_mem_nil,
              or_false] at hm
            rcases hm with h1 | h1 | h1
            · cases h1
            · cases h1
            · injection h1 with e1
              subst e1
              simp [deployTx, hgl]

/-- A concrete parameter record for `executeForward` witnesses, with no
explicit gas limit. -/
def pExecFwdW : ExecuteForwardParams :=
  { metaAddress := addrW, fTuple := [Val.vaddr addr2W], callData := [1],
    signature := "0xsig", overrides := noOverrides,
    hasCaller := some true, checkAllowlist := some true }

/-- Witness for the amended C4: a failing estimation in a concrete
`executeForward` run surfaces the estimation error. -/
theorem C4_gas_estimation_amended_witness :
    (executeForward eEnvEstFail pExecFwdW).1 =
      Except.error "execution reverted" := by
  exact C4_gas_estimation_amended.1 eEnvEstFail pExecFwdW addrW
    "execution reverted" (by decide) (by decide) rfl
    (Or.inr (by decide)) rfl

/-- Claim C5: in `executeForward`, when the allowlist check is enabled,
the schema variant includes the caller field, and the hub interface
exposes the allowlist query, the last element of the forward tuple is
queried against `isCallerAllowed`, and a negative answer makes the call
fail with a caller-not-allowed error before gas estimation is attempted
and before any transaction is sent from the relayer. -/
theorem C5_allowlist_gate :
    ∀ env p metaAddr,
      env.getAddress p.metaAddress = some metaAddr →
      ¬ env.encodeExecute p.fTuple p.callData p.signature = [] →
      p.checkAllowlist.getD true = true →
      p.hasCaller.getD true = true →
      env.hubHasIsCallerAllowed = true →
      env.isCallerAllowed ((p.fTuple.getLast?).getD Val.vundef) = false →
      (executeForward env p).1 = Except.error "Caller not allowed" ∧
      (executeForward env p).2 =
        [Effect.encodeExec p.fTuple p.callData p.signature,
         Effect.allowlistQuery ((p.fTuple.getLast?).getD Val.vundef)] ∧
      Effect.estimateGas ∉ (executeForward env p).2 ∧
      (∀ tx, Effect.sendTx tx ∉ (executeForward env p).2) := by
  intro env p metaAddr ha henc hchk hhc hhub hdeny
  have hcond : (p.checkAllowlist.getD true && p.hasCaller.getD true &&
      env.hubHasIsCallerAllowed) = true := by simp [hchk, hhc, hhub]
  unfold executeForward
  simp only [ha]
  rw [if_neg henc, if_pos hcond, if_neg (by simp [hdeny])]
  exact ⟨rfl, rfl, by simp, by simp⟩

/-- Witness for C5: a concrete denied caller fails fast, with no gas
estimation in the trace. -/
theorem C5_allowlist_gate_witness :
    (executeForward eEnvDeny pExecFwdW).1 =
      Except.error "Caller not allowed" ∧
    Effect.estimateGas ∉ (executeForward eEnvDeny pExecFwdW).2 := by
  have h := C5_allowlist_gate eEnvDeny pExecFwdW addrW (by decide)
    (by decide) rfl rfl rfl (by decide)
  exact ⟨h.1, h.2.2.1⟩

/-- The two extractors — `getDeployedAddress` (meta-exec-lib) and the
extraction loop of `deployViaMetaTx` — agree on every log list. -/
theorem getDeployedAddress_eq_extract (pl : LogEntry → Option ParsedEvent)
    (logs : List LogEntry) :
    getDeployedAddress pl ⟨logs⟩ = extractDeployed pl logs := by
  induction logs with
  | nil => rfl
  | cons l rest ih =>
    unfold getDeployedAddress extractDeployed
    simp only [List.map_cons]
    cases hpl : pl l with
    | none =>
      rw [List.find?_cons_of_neg]
      · exact ih
      · simp
    | some ev =>
      by_cases hname : (ev.name == "ContractDeployed") = true
      · rw [List.find?_cons_of_pos]
        · simp [hname]
        · exact hname
      · rw [List.find?_cons_of_neg]
        · simp only [Bool.not_eq_true] at hname
          simp only [hname, Bool.false_eq_true, if_false]
          exact ih
        · simpa using hname

/-- Dropping an undecodable log entry anywhere does not change the
extraction result. -/
theorem extractDeployed_skip (pl : LogEntry → Option ParsedEvent)
    (pre : List LogEntry) (l : LogEntry) (post : List LogEntry)
    (h : pl l = none) :
    extractDeployed pl (pre ++ l :: post) =
      extractDeployed pl (pre ++ post) := by
  induction pre with
  | nil =>
    simp only [List.nil_append]
    conv_lhs => unfold extractDeployed
    rw [h]
  | cons a pre ih =>
    simp only [List.cons_append]
    unfold extractDeployed
    cases hpa : pl a with
    | none => exact ih
    | some ev =>
      by_cases hname : (ev.name == "ContractDeployed") = true
      · simp [hname]
      · simp only [Bool.not_eq_true] at hname
        simp only [hname, Bool.false_eq_true, if_false]
        exact ih

/-- The extraction loop returns the first decoded `ContractDeployed`
event's `deployed` argument. -/
theorem extractDeployed_first (pl : LogEntry → Option ParsedEvent)
    (pre : List LogEntry) (l : LogEntry) (post : List LogEntry)
    (ev : ParsedEvent) (hl : pl l = some ev)
    (hn : ev.name = "ContractDeployed")
    (hpre : ∀ l2 ∈ pre, ∀ ev2, pl l2 = some ev2 →
      ev2.name ≠ "ContractDeployed") :
    extractDeployed pl (pre ++ l :: post) = some ev.deployed := by
  induction pre with
  | nil =>
    simp only [List.nil_append]
    unfold extractDeployed
    rw [hl]
    simp [hn]
  | cons a pre ih =>
    simp only [List.cons_append]
    unfold extractDeployed
    cases hpa : pl a with
    | none => exact ih (fun l2 h2 => hpre l2 (List.mem_cons_of_mem a h2))
    | some ev2 =>
      have hne : ev2.name ≠ "ContractDeployed" :=
        hpre a (List.mem_cons_self a pre) ev2 hpa
      have hb : (ev2.name == "ContractDeployed") = false := by
        simpa using hne
      simp only [hb, Bool.false_eq_true, if_false]
      exact ih (fun l2 h2 => hpre l2 (List.mem_cons_of_mem a h2))

/-- When no log entry decodes to a `ContractDeployed` event, the
extraction loop returns `none`. -/
theorem extractDeployed_none (pl : LogEntry → Option ParsedEvent)
    (logs : List LogEntry)
    (h : ∀ l ∈ logs, ∀ ev, pl l = some ev →
      ev.name ≠ "ContractDeployed") :
    extractDeployed pl logs = none := by
  induction logs with
  | nil => rfl
  | cons a rest ih =>
    unfold extractDeployed
    cases hpa : pl a with
    | none => exact ih (fun l2 h2 => h l2 (List.mem_cons_of_mem a h2))
    | some ev =>
      have hne : ev.name ≠ "ContractDeployed" :=
        h a (List.mem_cons_self a rest) ev hpa
      have hb : (ev.name == "ContractDeployed") = false := by
        simpa using hne
      simp only [hb, Bool.false_eq_true, if_false]
      exact ih (fun l2 h2 => h l2 (List.mem_cons_of_mem a h2))

/-- A successful `deployViaMetaTxBody` run carries a receipt and extracts
the deployed address from its logs. -/
theorem deployViaMetaTxBody_ok (env : ChainEnv) (p : MetaTxDeployParams)
    (rr : MetaTxDeployResult) (trB : List Effect)
    (h : deployViaMetaTxBody env p = (Except.ok rr, trB)) :
    rr.success = true ∧ ∃ rc, rr.receipt = some rc ∧
      rr.deployedAddress = extractDeployed env.parseLog rc.logs := by
  unfold deployViaMetaTxBody at h
  split at h
  · simp at h
  · split at h
    · simp at h
    · split at h
      · simp at h
      · split at h
        · simp at h
        · split at h
          · simp at h
          · split at h
            · simp at h
            · simp at h
            · simp only [Prod.mk.injEq, Except.ok.injEq] at h
              obtain ⟨h1, h2⟩ := h
              subst h1
              exact ⟨rfl, ⟨_, rfl, rfl⟩⟩

/-- Claim C6: the outcome extractor iterates the receipt's log entries in
order, silently skips every entry that does not decode against the hub
event schema, returns the deployed-address field of the first entry that
decodes to a `ContractDeployed` event, and returns null (not an error)
when no entry matches; `deployViaMetaTx`'s loop behaves identically. -/
theorem C6_outcome_extraction :
    (∀ pl r, getDeployedAddress pl r = extractDeployed pl r.logs) ∧
    (∀ pl pre l post ev, pl l = some ev → ev.name = "ContractDeployed" →
        (∀ l2 ∈ pre, ∀ ev2, pl l2 = some ev2 →
          ev2.name ≠ "ContractDeployed") →
        getDeployedAddress pl ⟨pre ++ l :: post⟩ = some ev.deployed) ∧
    (∀ pl logs, (∀ l ∈ logs, ∀ ev, pl l = some ev →
          ev.name ≠ "ContractDeployed") →
        getDeployedAddress pl ⟨logs⟩ = none) ∧
    (∀ pl pre l post, pl l = none →
        getDeployedAddress pl ⟨pre ++ l :: post⟩ =
          getDeployedAddress pl ⟨pre ++ post⟩) ∧
    (∀ env p r tr, deployViaMetaTx env p = (r, tr) → r.success = true →
        ∃ rc, r.receipt = some rc ∧
          r.deployedAddress = extractDeployed env.parseLog rc.logs) := by
  refine ⟨?_, ?_, ?_, ?_, ?_⟩
  · intro pl r
    cases r
    exact getDeployedAddress_eq_extract pl _
  · intro pl pre l post ev h1 h2 h3
    rw [getDeployedAddress_eq_extract]
    exact extractDeployed_first pl pre l post ev h1 h2 h3
  · intro pl logs h
    rw [getDeployedAddress_eq_extract]
    exact extractDeployed_none pl logs h
  · intro pl pre l post h
    rw [getDeployedAddress_eq_extract, getDeployedAddress_eq_extract]
    exact extractDeployed_skip pl pre l post h
  · intro env p r tr h hs
    unfold deployViaMetaTx at h
    rcases hB : deployViaMetaTxBody env p with ⟨res, trB⟩
    rw [hB] at h
    cases res with
    | error e =>
      simp only [Prod.mk.injEq] at h
      obtain ⟨h1, h2⟩ := h
      rw [← h1] at hs
      simp [deployCatch] at hs
    | ok rr =>
      simp only [Prod.mk.injEq] at h
      obtain ⟨h1, h2⟩ := h
      subst h1
      exact (deployViaMetaTxBody_ok env p _ _ hB).2

/-- Three concrete log entries for the C6 witness. -/
def logA : LogEntry := { topics := [[1]], data := [0] }

/-- A second concrete log entry. -/
def logB : LogEntry := { topics := [[2]], data := [1] }

/-- A third concrete log entry. -/
def logC : LogEntry := { topics := [[3]], data := [2] }

/-- A concrete log decoder: `logB` decodes to a `ContractDeployed` event,
`logC` to an unrelated event, `logA` does not decode. -/
def plW : LogEntry → Option ParsedEvent :=
  fun l =>
    if l = logB then some { name := "ContractDeployed", deployed := addrW }
    else if l = logC then some { name := "Other", deployed := addr2W }
    else none

/-- Witness for C6: on a concrete receipt whose first entry does not
decode and whose second decodes to an unrelated event, the extractor
returns the third entry's deployed address. -/
theorem C6_outcome_extraction_witness :
    getDeployedAddress plW ⟨[logA, logC, logB]⟩ = some addrW := by
  refine C6_outcome_extraction.2.1 plW [logA, logC] logB []
    { name := "ContractDeployed", deployed := addrW } (by decide) rfl ?_
  intro l2 hl2 ev2 hpl2
  simp only [List.mem_cons, List.not_mem_nil, or_false] at hl2
  rcases hl2 with h | h
  · subst h
    have hA : plW logA = none := by decide
    rw [hA] at hpl2
    cases hpl2
  · subst h
    have hC : plW logC = some { name := "Other", deployed := addr2W } := by
      decide
    rw [hC] at hpl2
    injection hpl2 with e
    rw [← e]
    decide

/-- A successful `executeViaMetaTxBody` run reports success and carries
exactly the forward struct built by the function. -/
theorem executeViaMetaTxBody_ok_fields (env : ChainEnv)
    (p : MetaTxExecuteParams) (rr : MetaTxExecuteResult) (trB : List Effect)
    (h : executeViaMetaTxBody env p = (Except.ok rr, trB)) :
    rr.success = true ∧ rr.forward = execViaForward env p := by
  unfold executeViaMetaTxBody at h
  split at h
  · simp at h
  · split at h
    · simp at h
    · split at h
      · simp at h
      · split at h
        · simp at h
        · split at h
          · simp at h
          · split at h
            · simp at h
            · simp at h
            · simp only [Prod.mk.injEq, Except.ok.injEq] at h
              obtain ⟨h1, h2⟩ := h
              subst h1
              exact ⟨rfl, rfl⟩

/-- A successful `deployViaMetaTxBody` run reports success and carries
exactly the forward struct built by the function. -/
theorem deployViaMetaTxBody_ok_fields (env : ChainEnv)
    (p : MetaTxDeployParams) (rr : MetaTxDeployResult) (trB : List Effect)
    (h : deployViaMetaTxBody env p = (Except.ok rr, trB)) :
    rr.success = true ∧ rr.forward = deployForward env p := by
  unfold deployViaMetaTxBody at h
  split at h
  · simp at h
  · split at h
    · simp at h
    · split at h
      · simp at h
      · split at h
        · simp at h
        · split at h
          · simp at h
          · split at h
            · simp at h
            · simp at h
            · simp only [Prod.mk.injEq, Except.ok.injEq] at h
              obtain ⟨h1, h2⟩ := h
              subst h1
              exact ⟨rfl, rfl⟩

/-- A successful `executeViaMetaTx` run hands back the forward struct it
built and signed. -/
theorem executeViaMetaTx_ok_forward (env : ChainEnv)
    (p : MetaTxExecuteParams) (r : MetaTxExecuteResult) (tr : List Effect)
    (h : executeViaMetaTx env p = (r, tr)) (hs : r.success = true) :
    r.forward = execViaForward env p := by
  unfold executeViaMetaTx at h
  rcases hB : executeViaMetaTxBody env p with ⟨res, trB⟩
  rw [hB] at h
  cases res with
  | error e =>
    simp only [Prod.mk.injEq] at h
    obtain ⟨h1, h2⟩ := h
    rw [← h1] at hs
    simp [execCatch] at hs
  | ok rr =>
    simp only [Prod.mk.injEq] at h
    obtain ⟨h1, h2⟩ := h
    subst h1
    exact (executeViaMetaTxBody_ok_fields env p _ _ hB).2

/-- A successful `deployViaMetaTx` run hands back the forward struct it
built and signed. -/
theorem deployViaMetaTx_ok_forward (env : ChainEnv)
    (p : MetaTxDeployParams) (r : MetaTxDeployResult) (tr : List Effect)
    (h : deployViaMetaTx env p = (r, tr)) (hs : r.success = true) :
    r.forward = deployForward env p := by
  unfold deployViaMetaTx at h
  rcases hB : deployViaMetaTxBody env p with ⟨res, trB⟩
  rw [hB] at h
  cases res with
  | error e =>
    simp only [Prod.mk.injEq] at h
    obtain ⟨h1, h2⟩ := h
    rw [← h1] at hs
    simp [deployCatch] at hs
  | ok rr =>
    simp only [Prod.mk.injEq] at h
    obtain ⟨h1, h2⟩ := h
    subst h1
    exact (deployViaMetaTxBody_ok_fields env p _ _ hB).2

/-- A `prepareForward` parameter record with `deadlineSec = 0` supplied
and no explicit deadline. -/
def pDs0 : PrepareForwardParams :=
  { metaAddress := addrW, domainName := none, domainVersion := none,
    hasCaller := some true, from_ := addr2W, to_ := addrW,
    value := some 0, space := some 0, nonce := some 1,
    deadline := none, deadlineSec := some 0,
    callData := [1], caller := some addr2W }

/-- The deadline slot (index 5) of the tuple of a successful
`prepareForward` result. -/
def prepSlot5 : Except String PrepareForwardResult → Option Val
  | Except.ok r => r.fTuple.get? 5
  | Except.error _ => none

/-- Counterexample for C7: with `deadlineSec = 0` given (present, not
absent) and no explicit deadline, `prepareForward` at time 1000 computes
the deadline 1600 = now + 600 (JavaScript `deadlineSec || 600` treats 0
as falsy), not now + deadlineSec = 1000. -/
theorem C7_counterexample_deadlineSec_zero :
    pDs0.deadline = none ∧ pDs0.deadlineSec = some 0 ∧
    (∃ r, (prepareForward kW gaW 648540 1000 pDs0).1 = Except.ok r ∧
       r.fTuple.get? 5 = some (Val.vuint 1600)) ∧
    (1600 : Nat) ≠ 1000 + 0 := by
  refine ⟨rfl, rfl, ?_, by decide⟩
  have hval : prepSlot5 (prepareForward kW gaW 648540 1000 pDs0).1 =
      some (Val.vuint 1600) := by decide
  rcases hE : (prepareForward kW gaW 648540 1000 pDs0).1 with e | r
  · rw [hE] at hval
    simp [prepSlot5] at hval
  · rw [hE] at hval
    simp only [prepSlot5] at hval
    exact ⟨r, rfl, hval⟩

/-- Claim C7 (amended): with no explicit deadline, `prepareForward`
computes current time + deadlineSec where the default 600 applies both
when `deadlineSec` is absent and when it is 0 (JavaScript `|| 600`),
while `executeViaMetaTx` and `deployViaMetaTx` compute current time +
deadlineSec with default 3600 only when `deadlineSec` is absent; an
explicit deadline is always used unchanged. -/
theorem C7_deadline_amended :
    (∀ k ga cid now p d r w,
        p.deadline = some d →
        prepareForward k ga cid now p = (Except.ok r, w) →
        r.fTuple.get? 5 = some (Val.vuint d)) ∧
    (∀ k ga cid now p r w,
        p.deadline = none →
        prepareForward k ga cid now p = (Except.ok r, w) →
        r.fTuple.get? 5 = some (Val.vuint
          (now + (if p.deadlineSec.getD 0 = 0 then 600
                  else p.deadlineSec.getD 0)))) ∧
    (∀ env p d r tr,
        p.deadline = some d →
        executeViaMetaTx env p = (r, tr) → r.success = true →
        r.forward.deadline = d) ∧
    (∀ env p r tr,
        p.deadline = none →
        executeViaMetaTx env p = (r, tr) → r.success = true →
        r.forward.deadline = env.now + p.deadlineSec.getD 3600) ∧
    (∀ env p d r tr,
        p.deadline = some d →
        deployViaMetaTx env p = (r, tr) → r.success = true →
        r.forward.deadline = d) ∧
    (∀ env p r tr,
        p.deadline = none →
        deployViaMetaTx env p = (r, tr) → r.success = true →
        r.forward.deadline = env.now + p.deadlineSec.getD 3600) := by
  refine ⟨?_, ?_, ?_, ?_, ?_, ?_⟩
  · intro k ga cid now p d r w hd h
    obtain ⟨n0, m0, hn0, ha0, hw0, hr0⟩ :=
      prepareForward_ok_eq k ga cid now p r w h
    subst hr0
    cases hb : p.hasCaller.getD true <;>
      simp [hb, prepDeadline, hd, List.get?]
  · intro k ga cid now p r w hd h
    obtain ⟨n0, m0, hn0, ha0, hw0, hr0⟩ :=
      prepareForward_ok_eq k ga cid now p r w h
    subst hr0
    cases hb : p.hasCaller.getD true <;>
      simp [hb, prepDeadline, hd, List.get?]
  · intro env p d r tr hd h hs
    rw [executeViaMetaTx_ok_forward env p r tr h hs]
    simp [execViaForward, createForwardRequest, execViaDeadline, hd]
  · intro env p r tr hd h hs
    rw [executeViaMetaTx_ok_forward env p r tr h hs]
    simp [execViaForward, createForwardRequest, execViaDeadline, hd]
  · intro env p d r tr hd h hs
    rw [deployViaMetaTx_ok_forward env p r tr h hs]
    simp [deployForward, createForwardRequest, deployDeadline, hd]
  · intro env p r tr hd h hs
    rw [deployViaMetaTx_ok_forward env p r tr h hs]
    simp [deployForward, createForwardRequest, deployDeadline, hd]

/-- Witness for the amended C7: at a concrete input with
`deadlineSec = 3600` and no explicit deadline, the computed deadline is
1000 + 3600. -/
theorem C7_deadline_amended_witness :
    ∃ r w, prepareForward kW gaW 648540 1000 pPrepW = (Except.ok r, w) ∧
      r.fTuple.get? 5 = some (Val.vuint 4600) := by
  rcases hE : prepareForward kW gaW 648540 1000 pPrepW with ⟨res, w⟩
  cases res with
  | error e =>
    have h1 : exOk (prepareForward kW gaW 648540 1000 pPrepW).1 = true := by
      decide
    rw [hE] at h1
    exact absurd h1 (by simp [exOk])
  | ok r =>
    have hv := C7_deadline_amended.2.1 kW gaW 648540 1000 pPrepW r w rfl hE
    exact ⟨r, w, rfl, by simpa using hv⟩

/-- A `prepareForward` parameter record whose explicit deadline (5) is
far in the past at construction time 1000. -/
def pPast : PrepareForwardParams :=
  { metaAddress := addrW, domainName := none, domainVersion := none,
    hasCaller := some true, from_ := addr2W, to_ := addrW,
    value := some 0, space := some 0, nonce := some 1,
    deadline := some 5, deadlineSec := none,
    callData := [1], caller := some addr2W }

/-- Counterexample for C8: at construction time 1000 with the past
deadline 5, `prepareForward` does construct and return the request, but
it emits no warning at all (its warning stream is empty) — the claimed
soft warning does not exist in the builder. -/
theorem C8_counterexample_no_warning :
    (5 : Nat) < 1000 ∧
    (prepareForward kW gaW 648540 1000 pPast).2 = [] ∧
    exOk (prepareForward kW gaW 648540 1000 pPast).1 = true ∧
    prepSlot5 (prepareForward kW gaW 648540 1000 pPast).1 =
      some (Val.vuint 5) := by decide

/-- Claim C8 (amended): the builder performs no deadline check at all —
for every ForwardRequest whose deadline already lies in the past at
construction time, `prepareForward` constructs and returns the request
with the given deadline unchanged, emitting no warning; deadline
enforcement is left entirely to the external verifier. -/
theorem C8_past_deadline_amended :
    ∀ k ga cid now p n d a,
      p.nonce = some n → ¬ p.callData = [] → ga p.metaAddress = some a →
      p.deadline = some d → d < now →
      (prepareForward k ga cid now p).2 = [] ∧
      ∃ r, (prepareForward k ga cid now p).1 = Except.ok r ∧
        r.fTuple.get? 5 = some (Val.vuint d) := by
  intro k ga cid now p n d a hn hc ha hd hlt
  have hok : ∃ r, prepareForward k ga cid now p = (Except.ok r, []) := by
    unfold prepareForward
    simp only [hn]
    rw [if_neg hc]
    simp only [ha]
    exact ⟨_, rfl⟩
  obtain ⟨r, hr⟩ := hok
  refine ⟨by rw [hr], r, by rw [hr], ?_⟩
  obtain ⟨n0, m0, hn0, ha0, hw0, hr0⟩ :=
    prepareForward_ok_eq k ga cid now p r [] hr
  subst hr0
  cases hb : p.hasCaller.getD true <;>
    simp [hb, prepDeadline, hd, List.get?]

/-- Witness for the amended C8: the concrete past-deadline input is
constructed unchanged with no warning. -/
theorem C8_past_deadline_amended_witness :
    (prepareForward kW gaW 648540 1000 pPast).2 = [] ∧
    ∃ r, (prepareForward kW gaW 648540 1000 pPast).1 = Except.ok r ∧
      r.fTuple.get? 5 = some (Val.vuint 5) := by
  exact C8_past_deadline_amended kW gaW 648540 1000 pPast 1 5 addrW
    rfl (by decide) (by decide) rfl (by decide)

/-- A successful `deployViaMetaTxBody` run implies the typed-data signer
accepted the forward struct. -/
theorem deployViaMetaTxBody_ok_sign (env : ChainEnv)
    (p : MetaTxDeployParams) (rr : MetaTxDeployResult) (trB : List Effect)
    (h : deployViaMetaTxBody env p = (Except.ok rr, trB)) :
    ∃ sig, env.signTypedData
        { name := EIP712_DOMAIN_name, version := EIP712_DOMAIN_version,
          chainId := env.chainId, verifyingContract := p.hubAddress }
        FORWARD_TYPE (deployForward env p) = Except.ok sig := by
  unfold deployViaMetaTxBody at h
  split at h
  · simp at h
  · split at h
    · simp at h
    · split at h
      · simp at h
      · split at h
        · simp at h
        · rename_i sig hsig
          exact ⟨sig, hsig⟩

/-- The forward struct built by `deployViaMetaTx` keeps the caller's
nonce unchanged (in particular, an omitted nonce stays `undefined`). -/
theorem deployForward_nonce (env : ChainEnv) (p : MetaTxDeployParams) :
    (deployForward env p).nonce = p.nonce := rfl

/-- Claim C10: although `deployViaMetaTx` declares its nonce parameter
optional (and `executeViaMetaTx` falls back to `generateSecureNonce`
when the nonce is omitted), `deployViaMetaTx` generates no nonce when
the parameter is omitted — the ForwardRequest's nonce stays undefined —
so, for any signer that (like ethers) rejects an undefined nonce field,
every call without an explicit nonce fails during signing (no
transaction is ever sent) and returns a result with success false and a
null deployed address; the function never throws: every failure is
reported through the returned result object. -/
theorem C10_deploy_nonce_omitted :
    (∀ env p,
        (∀ dm ty f, f.nonce = none →
          exOk (env.signTypedData dm ty f) = false) →
        p.nonce = none →
        (deployViaMetaTx env p).1.success = false ∧
        (deployViaMetaTx env p).1.deployedAddress = none ∧
        ((deployViaMetaTx env p).1.error).isSome = true) ∧
    (∀ env p f, Effect.signAttempt f ∈ (deployViaMetaTx env p).2 →
        f.nonce = p.nonce) ∧
    (∀ env p, (deployViaMetaTx env p).1.success = true ∨
        ((deployViaMetaTx env p).1.error).isSome = true) ∧
    (∀ env p f, p.nonce = none →
        Effect.signAttempt f ∈ (executeViaMetaTx env p).2 →
        f.nonce = some (generateSecureNonce env.now env.rand64)) ∧
    (∀ env p,
        (∀ dm ty f, f.nonce = none →
          exOk (env.signTypedData dm ty f) = false) →
        p.nonce = none →
        ∀ tx, Effect.sendTx tx ∉ (deployViaMetaTx env p).2) := by
  refine ⟨?_, ?_, ?_, ?_, ?_⟩
  · intro env p hSign hn
    unfold deployViaMetaTx
    rcases hB : deployViaMetaTxBody env p with ⟨res, trB⟩
    cases res with
    | error e => simp [deployCatch]
    | ok rr =>
      exfalso
      obtain ⟨sig, hsig⟩ := deployViaMetaTxBody_ok_sign env p rr trB hB
      have hrej := hSign
        { name := EIP712_DOMAIN_name, version := EIP712_DOMAIN_version,
          chainId := env.chainId, verifyingContract := p.hubAddress }
        FORWARD_TYPE (deployForward env p)
        (by rw [deployForward_nonce]; exact hn)
      rw [hsig] at hrej
      simp [exOk] at hrej
  · intro env p f hmem
    rw [deployViaMetaTx_trace_eq] at hmem
    unfold deployViaMetaTxBody at hmem
    split at hmem
    · simp at hmem
    · split at hmem
      · simp at hmem
      · split at hmem
        · simp at hmem
        · split at hmem
          · simp only [List.mem_singleton] at hmem
            injection hmem with e1
            subst e1
            exact deployForward_nonce env p
          · have : ∃ sig, Effect.signAttempt f ∈ deployTrace env p sig := by
              split at hmem
              · exact ⟨_, hmem⟩
              · split at hmem
                · exact ⟨_, hmem⟩
                · exact ⟨_, hmem⟩
                · split at hmem
                  · rcases List.mem_append.mp hmem with h2 | h2
                    · exact ⟨_, h2⟩
                    · simp at h2
                  · exact ⟨_, hmem⟩
            obtain ⟨sig, hm⟩ := this
            simp only [deployTrace, List.mem_cons, List.not_mem_nil,
              or_false] at hm
            rcases hm with h1 | h1 | h1
            · injection h1 with e1
              subst e1
              exact deployForward_nonce env p
            · cases h1
            · cases h1
  · intro env p
    unfold deployViaMetaTx
    rcases hB : deployViaMetaTxBody env p with ⟨res, trB⟩
    cases res with
    | error e => right; simp [deployCatch]
    | ok rr =>
      left
      simpa using (deployViaMetaTxBody_ok_fields env p rr trB hB).1
  · intro env p f hn hmem
    rw [executeViaMetaTx_trace_eq] at hmem
    unfold executeViaMetaTxBody at hmem
    split at hmem
    · simp at hmem
    · split at hmem
      · simp at hmem
      · split at hmem
        · simp at hmem
        · split at hmem
          · simp only [List.mem_singleton] at hmem
            injection hmem with e1
            subst e1
            simp [execViaForward, createForwardRequest, execViaNonce, hn]
          · have : ∃ sig, Effect.signAttempt f ∈ execViaTrace env p sig := by
              split at hmem
              · exact ⟨_, hmem⟩
              · split at hmem <;> exact ⟨_, hmem⟩
            obtain ⟨sig, hm⟩ := this
            simp only [execViaTrace, List.mem_cons, List.not_mem_nil,
              or_false] at hm
            rcases hm with h1 | h1 | h1
            · injection h1 with e1
              subst e1
              simp [execViaForward, createForwardRequest, execViaNonce, hn]
            · cases h1
            · cases h1
  · intro env p hSign hn tx
    rw [deployViaMetaTx_trace_eq]
    unfold deployViaMetaTxBody
    split
    · simp
    · split
      · simp
      · split
        · simp
        · split
          · simp
          · rename_i sig hsig
            exfalso
            have hrej := hSign
              { name := EIP712_DOMAIN_name,
                version := EIP712_DOMAIN_version,
                chainId := env.chainId, verifyingContract := p.hubAddress }
              FORWARD_TYPE (deployForward env p)
              (by rw [deployForward_nonce]; exact hn)
            rw [hsig] at hrej
            simp [exOk] at hrej

/-- A concrete `deployViaMetaTx` parameter record with the nonce
omitted. -/
def pDeployW : MetaTxDeployParams :=
  { contractBytecode := [0, 1], constructorTypes := some [],
    constructorArgs := some [], hubAddress := addr2W, space := some 0,
    nonce := none, deadline := some 2000, deadlineSec := none,
    gasLimit := none, gasPrice := some 0, domainName := none,
    domainVersion := none }

/-- Witness for C10: a concrete nonce-less deploy against a signer that
rejects undefined nonces fails with a result object, not a throw. -/
theorem C10_deploy_nonce_omitted_witness :
    (deployViaMetaTx envW pDeployW).1.success = false ∧
    (deployViaMetaTx envW pDeployW).1.deployedAddress = none ∧
    ((deployViaMetaTx envW pDeployW).1.error).isSome = true := by
  refine C10_deploy_nonce_omitted.1 envW pDeployW ?_ rfl
  intro dm ty f hf
  simp [envW, signW, hf, exOk]
